import Mathlib

/-!
# Verification of the logeagle dashboard snapshot cache and aggregation pipeline

Shallow embedding of `dashboard.py`: the snapshot discovery and window merge
(`read_latest_parquet_files`), the TTL cache around it (`get_dataframe`,
memoized with `timeout = config.refresh_interval = 10` seconds), the
content-refresh callback (`update_content`), the time-series bucketing
(`create_time_series`, `df.resample('1min').count()`) and the detail table
(`create_log_table`, `df.tail(10)`).

Modelling conventions:
* a parquet file on disk is an `FSFile`: its file name plus the outcome of
  `pd.read_parquet` on it (an `Except.error` models a raised exception, i.e. a
  corrupt or vanished file);
* a missing or unreadable log directory is modelled by passing
  `Except.error e` as the result of the directory listing;
* Python string comparison (used by `sorted(files, reverse=True)`) is
  code-point lexicographic comparison, embedded as `pyStrLtb` on `List Char`;
  `sorted(_, reverse=True)` is a stable descending sort, embedded as a stable
  insertion sort with the reflexive "name not less than" relation `fileGe`;
* `pd.to_datetime(col, unit='s')` with the default `errors='raise'` raises on
  a missing or non-parseable timestamp value; a raw timestamp cell is
  therefore an `Option Int` (`none` = does not parse) and `to_datetime`
  returns an `Except`;
* wall-clock time is an explicit `Nat` parameter (epoch seconds), and the
  flask-caching filesystem cache is an explicit key-indexed store threaded
  through `get_dataframe`.
-/

/-- A raw row as stored in a parquet snapshot file: the `timestamp` column
value (`some t` when the cell parses as epoch seconds, `none` when it is
missing or non-parseable) and the `line` column. -/
structure RawRecord where
  timestamp : Option Int
  line : String
deriving DecidableEq

/-- A row after `pd.to_datetime(df['timestamp'], unit='s')` succeeded:
timestamp in epoch seconds. -/
structure LogRecord where
  timestamp : Int
  line : String
deriving DecidableEq

/-- One point of the resampled time series produced by
`df.resample('1min').count()`: the start of a one-minute interval (epoch
seconds) and the number of records falling in it. -/
structure TimeBucket where
  interval_start : Int
  count : Nat
deriving DecidableEq

/-- A file in the log directory: its file name and the outcome of
`pd.read_parquet` on it. `Except.error` models a raised exception (corrupt
content, schema mismatch, file vanished between listing and read). -/
structure FSFile where
  name : String
  load : Except String (List RawRecord)

/-- Python string `<` on code points, as used by `sorted` on file names:
lexicographic comparison of the character sequences, shorter strings coming
first when one is a proper prefix of the other. -/
def pyStrLtb : List Char → List Char → Bool
  | _, [] => false
  | [], _ :: _ => true
  | a :: as, b :: bs =>
    if a < b then true
    else if b < a then false
    else pyStrLtb as bs

/-- The ordering used by `sorted(files, reverse=True)`: file `a` comes no
later than file `b` in the descending output iff `a`'s name is not less than
`b`'s name in Python string order. -/
def fileGe (a b : FSFile) : Prop :=
  pyStrLtb a.name.data b.name.data = false

instance : DecidableRel fileGe :=
  fun a b => instDecidableEqBool (pyStrLtb a.name.data b.name.data) false

/-- `glob.glob(os.path.join(directory, prefix + "*.parquet"))` membership
test on one file name: the name starts with the category prefix and what
remains after the prefix ends in `".parquet"`. -/
def matchesGlob (pat name : String) : Bool :=
  pat.data.isPrefixOf name.data
    && List.isSuffixOf ".parquet".data (name.data.drop pat.data.length)

/-- Line 45 of the source: `sorted(files, reverse=True)[:5]` applied to the
matching files — the window of (at most) five lexically greatest names, in
descending name order. -/
def windowFiles (fs : List FSFile) (pat : String) : List FSFile :=
  (List.insertionSort fileGe (fs.filter fun f => matchesGlob pat f.name)).take 5

/-- Lines 44–55 of the source: the per-file read loop over the window
(`try: df = pd.read_parquet(file); dfs.append(df); except: continue`)
followed by `if not dfs: return pd.DataFrame()` and
`pd.concat(dfs, ignore_index=True)`. -/
def mergeWindow (window : List FSFile) : List RawRecord :=
  let dfs := window.filterMap fun f => (f.load).toOption
  if dfs.isEmpty then [] else dfs.flatten

/-- The `try:` block of `read_latest_parquet_files` (lines 38–55): list the
directory, return an empty frame when nothing matches, otherwise merge the
window of the five lexically greatest matching files. A failed directory
listing re-raises (to be caught by the enclosing `except`). -/
def read_latest_body (g : Except String (List FSFile)) (pat : String) :
    Except String (List RawRecord) :=
  match g with
  | Except.error e => Except.error e
  | Except.ok allFiles =>
    let files := allFiles.filter fun f => matchesGlob pat f.name
    if files.isEmpty then Except.ok []
    else Except.ok (mergeWindow ((List.insertionSort fileGe files).take 5))

/-- `read_latest_parquet_files(directory, prefix)` (lines 36–57): the body
above with the enclosing `except Exception: return pd.DataFrame()`. The
argument `g` is the outcome of listing the directory. -/
def read_latest_parquet_files (g : Except String (List FSFile)) (pat : String) :
    List RawRecord :=
  match read_latest_body g pat with
  | Except.ok r => r
  | Except.error _ => []

/-- `config.refresh_interval = 10`, used both as the cache timeout of
`@cache.memoize(timeout=config.refresh_interval)` and as the UI refresh
cadence. -/
def ttlSeconds : Nat := 10

/-- The flask-caching filesystem store backing `@cache.memoize`: per memoize
key (the `log_type` argument of `get_dataframe`), the cached value and the
time it was stored. -/
abbrev CacheState := String → Option (List RawRecord × Nat)

/-- The memoize-miss path: call the wrapped function
(`read_latest_parquet_files(config.log_dir, log_type)`), store the result
with the current time, return it. The `Bool` records that the wrapped
function was invoked. -/
def refreshKey (fs : List FSFile) (st : CacheState) (now : Nat) (key : String) :
    List RawRecord × CacheState × Bool :=
  let v := read_latest_parquet_files (Except.ok fs) key
  (v, fun k => if k = key then some (v, now) else st k, true)

/-- `get_dataframe(log_type)` (lines 76–78) under
`@cache.memoize(timeout=config.refresh_interval)`: a stored entry is served
while `now < stored_at + ttlSeconds`, otherwise the wrapped read runs again
and its result is stored at `now`. `fs` is the current directory contents
(the files `glob` would see). -/
def get_dataframe (fs : List FSFile) (st : CacheState) (now : Nat) (key : String) :
    List RawRecord × CacheState × Bool :=
  match st key with
  | some (v, stored) =>
    if now < stored + ttlSeconds then (v, st, false)
    else refreshKey fs st now key
  | none => refreshKey fs st now key

/-- The cache entries agree with what a fresh read of the current directory
contents would produce — i.e. no underlying file change happened since the
entries were stored. -/
def CacheConsistent (fs : List FSFile) (st : CacheState) : Prop :=
  ∀ k v t, st k = some (v, t) → v = read_latest_parquet_files (Except.ok fs) k

/-- `pd.to_datetime(df['timestamp'], unit='s')` with the default
`errors='raise'` (line 127): converts every row's timestamp, raising a
`ValueError` as soon as one value is missing or non-parseable. -/
def to_datetime : List RawRecord → Except String (List LogRecord)
  | [] => Except.ok []
  | r :: rs =>
    match r.timestamp with
    | none => Except.error "ValueError: unable to parse timestamp"
    | some t =>
      match to_datetime rs with
      | Except.error e => Except.error e
      | Except.ok recs => Except.ok (LogRecord.mk t r.line :: recs)

/-- Ascending timestamp order on converted rows, the sort key of
`df.set_index('timestamp').sort_index()`. -/
def tsLe (a b : LogRecord) : Prop :=
  a.timestamp ≤ b.timestamp

instance : DecidableRel tsLe :=
  fun a b => Int.decLe a.timestamp b.timestamp

/-- `df.set_index('timestamp').sort_index()` (line 128): sort the rows by
timestamp, ascending. -/
def sort_index (df : List LogRecord) : List LogRecord :=
  List.insertionSort tsLe df

/-- Floor of a timestamp to its one-minute resample bin. `pandas` aligns
`resample('1min')` bins to midnight of the first day (`origin='start_day'`);
since a day is a whole number of minutes this is rounding down to a multiple
of 60 seconds (`/` on `Int` rounds toward minus infinity for the positive
divisor 60). -/
def bucketStart (t : Int) : Int :=
  t / 60 * 60

/-- Minimum of a nonempty collection `x :: xs`, as `foldl min`. -/
def listMinInt (x : Int) (xs : List Int) : Int :=
  xs.foldl min x

/-- Maximum of a nonempty collection `x :: xs`, as `foldl max`. -/
def listMaxInt (x : Int) (xs : List Int) : Int :=
  xs.foldl max x

/-- `create_time_series(df, title)` data content (line 154):
`df.resample('1min').count()` over the timestamp index — one point per
one-minute bin from the bin of the smallest timestamp up to the bin of the
largest timestamp inclusive (pandas resample output is dense: bins with no
rows appear with count 0), each point counting the rows whose timestamp
falls in the bin. The `title` only labels the figure. -/
def create_time_series (df : List LogRecord) (_title : String) : List TimeBucket :=
  match df with
  | [] => []
  | r :: rs =>
    let tss := r.timestamp :: rs.map LogRecord.timestamp
    let lo := bucketStart (listMinInt r.timestamp (rs.map LogRecord.timestamp))
    let hi := bucketStart (listMaxInt r.timestamp (rs.map LogRecord.timestamp))
    (List.range (((hi - lo) / 60).toNat + 1)).map fun i : Nat =>
      TimeBucket.mk (lo + 60 * (i : Int))
        (tss.filter fun t => bucketStart t = lo + 60 * (i : Int)).length

/-- `create_log_table(df)` data content (line 181): `df.tail(10)` — the last
ten rows of the (sorted) frame, in frame order. -/
def create_log_table (df : List LogRecord) : List LogRecord :=
  df.drop (df.length - 10)

/-- Which log category a tab shows (lines 111–116): `'tab-1'` is the access
log, anything else the error log. -/
def categoryOf (tab : String) : String :=
  if tab = "tab-1" then "access" else "error"

/-- What `update_content` hands to the presentation layer: either the
"No Data Available" placeholder or the time-series figure plus the
recent-entries table. -/
inductive Rendered where
  | noData : Rendered
  | content : List TimeBucket → List LogRecord → Rendered
deriving DecidableEq

/-- Lines 118–150 of `update_content`, after the frame has been fetched:
the `df.empty` check rendering "No Data Available", then
`pd.to_datetime` (which raises on a bad timestamp — modelled as
`Except.error`), the sort, the time-series figure and the table. -/
def update_content_body (df : List RawRecord) (title : String) :
    Except String Rendered :=
  if df.isEmpty then Except.ok Rendered.noData
  else
    match to_datetime df with
    | Except.error e => Except.error e
    | Except.ok recs =>
      let sorted := sort_index recs
      Except.ok (Rendered.content (create_time_series sorted title)
        (create_log_table sorted))

/-- The tab title shown above the plots (lines 111–116). -/
def titleOf (tab : String) : String :=
  if tab = "tab-1" then "Access Logs" else "Error Logs"

/-- `update_content(tab, n)` (lines 108–150): fetch the frame for the tab's
category through the memoizing cache, then render it. Returns the rendered
result (or the raised error, which Dash would surface as a callback error)
together with the cache state left behind. -/
def update_content (fs : List FSFile) (st : CacheState) (now : Nat) (tab : String) :
    Except String Rendered × CacheState :=
  let r := get_dataframe fs st now (categoryOf tab)
  (update_content_body r.1 (titleOf tab), r.2.1)

/-! ## Order properties of Python string comparison -/

/-- Comparing a list with the empty list: nothing is less than `""`. -/
theorem pyStrLtb_nil_right (a : List Char) : pyStrLtb a [] = false := by
  cases a <;> rfl

/-- Python string `<` is irreflexive. -/
theorem pyStrLtb_irrefl (a : List Char) : pyStrLtb a a = false := by
  induction a with
  | nil => rfl
  | cons x xs ih => simp [pyStrLtb, ih]

/-- Python string `<` is transitive. -/
theorem pyStrLtb_trans : ∀ (a b c : List Char),
    pyStrLtb a b = true → pyStrLtb b c = true → pyStrLtb a c = true := by
  intro a
  induction a with
  | nil =>
    intro b c _ hbc
    cases c with
    | nil => rw [pyStrLtb_nil_right] at hbc; exact absurd hbc (by simp)
    | cons z zs => rfl
  | cons x xs ih =>
    intro b c hab hbc
    cases b with
    | nil => rw [pyStrLtb_nil_right] at hab; exact absurd hab (by simp)
    | cons y ys =>
      cases c with
      | nil => rw [pyStrLtb_nil_right] at hbc; exact absurd hbc (by simp)
      | cons z zs =>
        simp only [pyStrLtb] at hab hbc ⊢
        by_cases hxy : x < y
        · by_cases hyz : y < z
          · simp [lt_trans hxy hyz]
          · by_cases hzy : z < y
            · simp [hyz, hzy] at hbc
            · have : y = z := le_antisymm (le_of_not_lt hzy) (le_of_not_lt hyz)
              subst this
              simp [hxy]
        · by_cases hyx : y < x
          · simp [hxy, hyx] at hab
          · have hxy2 : x = y := le_antisymm (le_of_not_lt hyx) (le_of_not_lt hxy)
            subst hxy2
            simp [pyStrLtb, hxy] at hab
            by_cases hyz : x < z
            · simp [hyz]
            · by_cases hzy : z < x
              · simp [hyz, hzy] at hbc
              · have : x = z := le_antisymm (le_of_not_lt hzy) (le_of_not_lt hyz)
                subst this
                simp [hyz, pyStrLtb] at hbc ⊢
                exact ih ys zs hab hbc

/-- Python string `<` is trichotomous. -/
theorem pyStrLtb_trichotomy : ∀ (a b : List Char),
    pyStrLtb a b = true ∨ a = b ∨ pyStrLtb b a = true := by
  intro a
  induction a with
  | nil =>
    intro b
    cases b with
    | nil => exact Or.inr (Or.inl rfl)
    | cons y ys => exact Or.inl rfl
  | cons x xs ih =>
    intro b
    cases b with
    | nil => exact Or.inr (Or.inr rfl)
    | cons y ys =>
      rcases lt_trichotomy x y with h | h | h
      · left; simp [pyStrLtb, h]
      · subst h
        rcases ih ys with h2 | h2 | h2
        · left; simp [pyStrLtb, lt_irrefl, h2]
        · right; left; rw [h2]
        · right; right; simp [pyStrLtb, lt_irrefl, h2]
      · right; right; simp [pyStrLtb, h]

instance : IsTrans FSFile fileGe where
  trans a b c hab hbc := by
    unfold fileGe at hab hbc ⊢
    by_contra h
    rw [Bool.not_eq_false] at h
    rcases pyStrLtb_trichotomy c.name.data b.name.data with h1 | h1 | h1
    · exact absurd (pyStrLtb_trans _ _ _ h h1) (by rw [hab]; simp)
    · rw [h1] at h; exact absurd h (by rw [hab]; simp)
    · exact absurd h1 (by rw [hbc]; simp)

instance : IsTotal FSFile fileGe where
  total a b := by
    unfold fileGe
    by_cases hab : pyStrLtb a.name.data b.name.data = false
    · exact Or.inl hab
    · rw [Bool.not_eq_false] at hab
      right
      by_contra h
      rw [Bool.not_eq_false] at h
      have := pyStrLtb_trans _ _ _ hab h
      rw [pyStrLtb_irrefl] at this
      exact absurd this (by simp)

instance : IsTrans LogRecord tsLe where
  trans _ _ _ hab hbc := le_trans hab hbc

instance : IsTotal LogRecord tsLe where
  total a b := Int.le_total a.timestamp b.timestamp

/-! ## The window merge -/

/-- The per-file loop absorbs failed loads: the merge result is the
concatenation of the successfully loaded frames, in window order (the
`if not dfs` branch coincides with the concatenation of no frames). -/
theorem mergeWindow_eq (w : List FSFile) :
    mergeWindow w = (w.filterMap fun f => (f.load).toOption).flatten := by
  unfold mergeWindow
  by_cases h : (w.filterMap fun f => (f.load).toOption).isEmpty
  · rw [List.isEmpty_iff] at h
    simp [h]
  · simp [h]

/-- On a successful directory listing, `read_latest_parquet_files` merges
exactly the window of the five lexically greatest matching files. -/
theorem read_latest_ok_eq (fs : List FSFile) (pat : String) :
    read_latest_parquet_files (Except.ok fs) pat
      = ((windowFiles fs pat).filterMap fun f => (f.load).toOption).flatten := by
  unfold read_latest_parquet_files read_latest_body windowFiles
  by_cases h : (fs.filter fun f => matchesGlob pat f.name).isEmpty
  · have h2 := List.isEmpty_iff.mp h
    simp [h, h2]
  · simp only [h, Bool.false_eq_true, if_false]
    exact mergeWindow_eq _

/-! ## Aggregation helpers -/

/-- `foldl min` bounds every element of `x :: xs` from below. -/
theorem listMinInt_le : ∀ (xs : List Int) (x : Int), ∀ t ∈ x :: xs, listMinInt x xs ≤ t := by
  intro xs
  induction xs with
  | nil =>
    intro x t ht
    rcases List.mem_cons.mp ht with rfl | h
    · exact le_refl t
    · cases h
  | cons y ys ih =>
    intro x t ht
    have step : listMinInt x (y :: ys) = listMinInt (min x y) ys := rfl
    have hbase : listMinInt (min x y) ys ≤ min x y :=
      ih (min x y) (min x y) (List.mem_cons_self _ _)
    rcases List.mem_cons.mp ht with heq | h
    · rw [heq, step]
      exact le_trans hbase (min_le_left _ _)
    · rcases List.mem_cons.mp h with heq | h2
      · rw [heq, step]
        exact le_trans hbase (min_le_right _ _)
      · rw [step]
        exact ih (min x y) t (List.mem_cons_of_mem _ h2)

/-- `foldl max` bounds every element of `x :: xs` from above. -/
theorem le_listMaxInt : ∀ (xs : List Int) (x : Int), ∀ t ∈ x :: xs, t ≤ listMaxInt x xs := by
  intro xs
  induction xs with
  | nil =>
    intro x t ht
    rcases List.mem_cons.mp ht with rfl | h
    · exact le_refl t
    · cases h
  | cons y ys ih =>
    intro x t ht
    have step : listMaxInt x (y :: ys) = listMaxInt (max x y) ys := rfl
    have hbase : max x y ≤ listMaxInt (max x y) ys :=
      ih (max x y) (max x y) (List.mem_cons_self _ _)
    rcases List.mem_cons.mp ht with heq | h
    · rw [heq, step]
      exact le_trans (le_max_left _ _) hbase
    · rcases List.mem_cons.mp h with heq | h2
      · rw [heq, step]
        exact le_trans (le_max_right _ _) hbase
      · rw [step]
        exact ih (max x y) t (List.mem_cons_of_mem _ h2)

/-- Flooring to a one-minute bin is monotone. -/
theorem bucketStart_mono {a b : Int} (h : a ≤ b) : bucketStart a ≤ bucketStart b := by
  unfold bucketStart
  have := Int.ediv_le_ediv (by norm_num : (0 : Int) < 60) h
  exact mul_le_mul_of_nonneg_right this (by norm_num)

/-- The distance between two bin starts, measured in bins. -/
theorem bucketStart_sub_ediv (a b : Int) :
    (bucketStart a - bucketStart b) / 60 = a / 60 - b / 60 := by
  unfold bucketStart
  have : a / 60 * 60 - b / 60 * 60 = 60 * (a / 60 - b / 60) := by ring
  rw [this, Int.mul_ediv_cancel_left _ (by norm_num : (60 : Int) ≠ 0)]

/-- Sums of pointwise sums split. -/
theorem sum_map_add {β : Type} (f g : β → Nat) (ks : List β) :
    (ks.map fun b => f b + g b).sum = (ks.map f).sum + (ks.map g).sum := by
  induction ks with
  | nil => rfl
  | cons b bs ih => simp [ih]; omega

/-- Over a duplicate-free key list containing `x`, the indicator of `x` sums
to one. -/
theorem sum_map_indicator (x : Int) : ∀ (ks : List Int), ks.Nodup → x ∈ ks →
    (ks.map fun b => if x = b then (1 : Nat) else 0).sum = 1 := by
  intro ks
  induction ks with
  | nil => intro _ h; cases h
  | cons b bs ih =>
    intro hnd hx
    rcases List.mem_cons.mp hx with rfl | hmem
    · have hnotin : x ∉ bs := (List.nodup_cons.mp hnd).1
      have hzero : (bs.map fun b => if x = b then (1 : Nat) else 0).sum = 0 := by
        rw [List.sum_eq_zero_iff]
        intro n hn
        obtain ⟨c, hc, rfl⟩ := List.mem_map.mp hn
        have : x ≠ c := fun h => hnotin (h ▸ hc)
        simp [this]
      simp [hzero]
    · have hne : x ≠ b := by
        intro h
        exact (List.nodup_cons.mp hnd).1 (h ▸ hmem)
      simp [hne, ih (List.nodup_cons.mp hnd).2 hmem]

/-- Partition property of bucket counting: when the key of every element of
`l` occurs exactly once in `ks`, the per-key filter lengths sum to the length
of `l`. -/
theorem sum_filter_partition {α : Type} (key : α → Int) : ∀ (l : List α) (ks : List Int),
    ks.Nodup → (∀ a ∈ l, key a ∈ ks) →
    (ks.map fun b => (l.filter fun a => key a = b).length).sum = l.length := by
  intro l
  induction l with
  | nil =>
    intro ks _ _
    have : (ks.map fun b => (([] : List α).filter fun a => key a = b).length)
        = ks.map fun _ => 0 := by
      simp
    rw [this]
    simp
  | cons a l ih =>
    intro ks hnd hcov
    have hpoint : (ks.map fun b => ((a :: l).filter fun x => key x = b).length)
        = ks.map fun b =>
            (if key a = b then (1 : Nat) else 0) + (l.filter fun x => key x = b).length := by
      apply List.map_congr_left
      intro b _
      by_cases h : key a = b
      · simp [List.filter_cons, h]
        omega
      · simp [List.filter_cons, h]
    rw [hpoint, sum_map_add, sum_map_indicator (key a) ks hnd (hcov a (List.mem_cons_self _ _)),
      ih ks hnd fun x hx => hcov x (List.mem_cons_of_mem _ hx)]
    rw [List.length_cons]
    omega

/-- Every element's bin start lies in the dense range emitted by the
resample: it is `lo + 60 * i` for some index `i` below the bin count. -/
theorem bucket_index_exists (r : LogRecord) (rs : List LogRecord) (x : Int)
    (hx : x ∈ r.timestamp :: rs.map LogRecord.timestamp) :
    ∃ i : Nat,
      i < ((bucketStart (listMaxInt r.timestamp (rs.map LogRecord.timestamp))
            - bucketStart (listMinInt r.timestamp (rs.map LogRecord.timestamp))) / 60).toNat + 1
      ∧ bucketStart (listMinInt r.timestamp (rs.map LogRecord.timestamp)) + 60 * (i : Int)
          = bucketStart x := by
  set mn := listMinInt r.timestamp (rs.map LogRecord.timestamp) with hmn
  set mx := listMaxInt r.timestamp (rs.map LogRecord.timestamp) with hmx
  have hlo : mn ≤ x := listMinInt_le _ _ x hx
  have hhi : x ≤ mx := le_listMaxInt _ _ x hx
  have hdiv_lo : mn / 60 ≤ x / 60 := Int.ediv_le_ediv (by norm_num) hlo
  have hdiv_hi : x / 60 ≤ mx / 60 := Int.ediv_le_ediv (by norm_num) hhi
  refine ⟨(x / 60 - mn / 60).toNat, ?_, ?_⟩
  · rw [bucketStart_sub_ediv]
    omega
  · have hnn : (0 : Int) ≤ x / 60 - mn / 60 := by omega
    rw [Int.toNat_of_nonneg hnn]
    unfold bucketStart
    ring

/-! ## Timestamp conversion -/

/-- One bad cell makes the whole `pd.to_datetime` call raise. -/
theorem to_datetime_error_of_bad : ∀ (df : List RawRecord), (∃ r ∈ df, r.timestamp = none) →
    to_datetime df = Except.error "ValueError: unable to parse timestamp" := by
  intro df
  induction df with
  | nil =>
    rintro ⟨r, hr, _⟩
    cases hr
  | cons a l ih =>
    rintro ⟨r, hr, hnone⟩
    rcases List.mem_cons.mp hr with heq | hmem
    · rw [heq] at hnone
      simp [to_datetime, hnone]
    · cases ha : a.timestamp with
      | none => simp [to_datetime, ha]
      | some v => simp [to_datetime, ha, ih ⟨r, hmem, hnone⟩]

/-- When every cell parses, `pd.to_datetime` succeeds. -/
theorem to_datetime_ok_of_good : ∀ (df : List RawRecord), (∀ r ∈ df, r.timestamp ≠ none) →
    ∃ recs, to_datetime df = Except.ok recs := by
  intro df
  induction df with
  | nil => exact fun _ => ⟨[], rfl⟩
  | cons a l ih =>
    intro h
    obtain ⟨recs, hrecs⟩ := ih fun r hr => h r (List.mem_cons_of_mem _ hr)
    cases ha : a.timestamp with
    | none => exact absurd ha (h a (List.mem_cons_self _ _))
    | some v =>
      exact ⟨LogRecord.mk v a.line :: recs, by simp [to_datetime, ha, hrecs]⟩

/-- No matching file means the read returns the empty frame. -/
theorem read_latest_empty_of_no_match (fs : List FSFile) (pat : String)
    (h : ∀ f ∈ fs, matchesGlob pat f.name = false) :
    read_latest_parquet_files (Except.ok fs) pat = [] := by
  have hf : fs.filter (fun f => matchesGlob pat f.name) = [] :=
    List.filter_eq_nil_iff.mpr fun a ha => by simp [h a ha]
  unfold read_latest_parquet_files read_latest_body
  simp [hf]

/-! ## Claims about the file window and the merge -/

/-- Claim C1: for every category with zero matching snapshot files in the log
directory, the summary operation (`update_content`, fetching through the
cache) returns the "No Data Available" rendering — the empty shape with no
buckets and no tail — and never an error. The cache is assumed consistent
with the (matchless) directory contents, i.e. no stale entry from files that
no longer exist. -/
theorem update_content_noData (fs : List FSFile) (st : CacheState) (now : Nat) (tab : String)
    (hmatch : ∀ f ∈ fs, matchesGlob (categoryOf tab) f.name = false)
    (hcons : CacheConsistent fs st) :
    (update_content fs st now tab).1 = Except.ok Rendered.noData := by
  have hempty : read_latest_parquet_files (Except.ok fs) (categoryOf tab) = [] :=
    read_latest_empty_of_no_match _ _ hmatch
  have hdf : (get_dataframe fs st now (categoryOf tab)).1 = [] := by
    unfold get_dataframe refreshKey
    cases hst : st (categoryOf tab) with
    | none => simpa using hempty
    | some vt =>
      obtain ⟨v, t⟩ := vt
      by_cases hv : now < t + ttlSeconds
      · simpa [hv] using (hcons _ _ _ hst).trans hempty
      · simpa [hv] using hempty
  show update_content_body (get_dataframe fs st now (categoryOf tab)).1 (titleOf tab)
      = Except.ok Rendered.noData
  rw [hdf]
  rfl

/-- Claim C1 witness: a directory holding only an error-log snapshot renders
"No Data Available" on the access tab, starting from a cold cache. -/
theorem update_content_noData_witness :
    (update_content [FSFile.mk "error_2024.parquet" (Except.ok [RawRecord.mk (some 5) "e1"])]
      (fun _ => none) 0 "tab-1").1 = Except.ok Rendered.noData :=
  update_content_noData _ _ 0 "tab-1" (by decide) (fun _ _ _ h => Option.noConfusion h)

/-- Claim C2: whatever the directory contents and the category, the merged
record set is the concatenation of loads of a selection of at most five
matching files from the directory — records can come from at most `k = 5`
distinct snapshot files. -/
theorem merged_from_at_most_five_files (fs : List FSFile) (pat : String) :
    ∃ sel : List FSFile,
      sel.length ≤ 5
      ∧ (∀ f ∈ sel, f ∈ fs ∧ matchesGlob pat f.name = true)
      ∧ read_latest_parquet_files (Except.ok fs) pat
          = (sel.filterMap fun f => (f.load).toOption).flatten := by
  refine ⟨windowFiles fs pat, ?_, ?_, read_latest_ok_eq fs pat⟩
  · unfold windowFiles
    rw [List.length_take]
    exact min_le_left _ _
  · intro f hf
    have h1 : f ∈ List.insertionSort fileGe (fs.filter fun x => matchesGlob pat x.name) :=
      List.take_subset _ _ hf
    have h2 : f ∈ fs.filter fun x => matchesGlob pat x.name :=
      (List.perm_insertionSort fileGe _).subset h1
    exact List.mem_filter.mp h2

/-- Claim C2 witness: six matching files, one corrupt, still merge from a
five-file window. -/
theorem merged_from_at_most_five_files_witness :
    ∃ sel : List FSFile,
      sel.length ≤ 5
      ∧ (∀ f ∈ sel, f ∈
          [FSFile.mk "access_1.parquet" (Except.ok [RawRecord.mk (some 1) "a"]),
           FSFile.mk "access_2.parquet" (Except.ok [RawRecord.mk (some 2) "b"]),
           FSFile.mk "access_3.parquet" (Except.error "corrupt"),
           FSFile.mk "access_4.parquet" (Except.ok [RawRecord.mk (some 4) "d"]),
           FSFile.mk "access_5.parquet" (Except.ok [RawRecord.mk (some 5) "e"]),
           FSFile.mk "access_6.parquet" (Except.ok [RawRecord.mk (some 6) "f"])]
          ∧ matchesGlob "access" f.name = true)
      ∧ read_latest_parquet_files (Except.ok
          [FSFile.mk "access_1.parquet" (Except.ok [RawRecord.mk (some 1) "a"]),
           FSFile.mk "access_2.parquet" (Except.ok [RawRecord.mk (some 2) "b"]),
           FSFile.mk "access_3.parquet" (Except.error "corrupt"),
           FSFile.mk "access_4.parquet" (Except.ok [RawRecord.mk (some 4) "d"]),
           FSFile.mk "access_5.parquet" (Except.ok [RawRecord.mk (some 5) "e"]),
           FSFile.mk "access_6.parquet" (Except.ok [RawRecord.mk (some 6) "f"])]) "access"
          = (sel.filterMap fun f => (f.load).toOption).flatten :=
  merged_from_at_most_five_files _ "access"

/-- Claim C3: a corrupt file among the window's candidates is absorbed: the
merge of the window with the corrupt file present equals exactly the
concatenated contributions of the other (all valid) files, in order. -/
theorem corrupt_file_isolated (xs ys : List FSFile) (c : FSFile)
    (hbad : (c.load).isOk = false)
    (_hgood : ∀ f ∈ xs ++ ys, (f.load).isOk = true) :
    mergeWindow (xs ++ c :: ys)
      = ((xs ++ ys).filterMap fun f => (f.load).toOption).flatten := by
  have hc : (c.load).toOption = none := by
    cases h : c.load with
    | ok v => rw [h] at hbad; simp [Except.isOk, Except.toBool] at hbad
    | error e => rfl
  rw [mergeWindow_eq]
  simp [List.filterMap_append, List.filterMap_cons, hc]

/-- Claim C3 witness: a corrupt middle file contributes nothing; the two
valid files' records survive unchanged. -/
theorem corrupt_file_isolated_witness :
    mergeWindow
        [FSFile.mk "access_b.parquet" (Except.ok [RawRecord.mk (some 2) "y"]),
         FSFile.mk "access_c.parquet" (Except.error "corrupt"),
         FSFile.mk "access_a.parquet" (Except.ok [RawRecord.mk (some 1) "x"])]
      = (([FSFile.mk "access_b.parquet" (Except.ok [RawRecord.mk (some 2) "y"]),
           FSFile.mk "access_a.parquet" (Except.ok [RawRecord.mk (some 1) "x"])]).filterMap
          fun f => (f.load).toOption).flatten :=
  corrupt_file_isolated
    [FSFile.mk "access_b.parquet" (Except.ok [RawRecord.mk (some 2) "y"])]
    [FSFile.mk "access_a.parquet" (Except.ok [RawRecord.mk (some 1) "x"])]
    (FSFile.mk "access_c.parquet" (Except.error "corrupt")) rfl (by decide)

/-- Claim C4: the window is the (at most) five lexically greatest matching
file names in descending code-point order: it is pairwise descending under
`fileGe`, has at most five files, dominates every matching file it leaves
out, and together with the leftovers is a permutation of all matching
files. -/
theorem window_lexical_desc (fs : List FSFile) (pat : String) :
    List.Pairwise fileGe (windowFiles fs pat)
    ∧ (windowFiles fs pat).length ≤ 5
    ∧ (∀ f ∈ (List.insertionSort fileGe (fs.filter fun x => matchesGlob pat x.name)).drop 5,
        ∀ g ∈ windowFiles fs pat, fileGe g f)
    ∧ (windowFiles fs pat
        ++ (List.insertionSort fileGe (fs.filter fun x => matchesGlob pat x.name)).drop 5).Perm
        (fs.filter fun x => matchesGlob pat x.name) := by
  have hs : List.Pairwise fileGe
      (List.insertionSort fileGe (fs.filter fun x => matchesGlob pat x.name)) :=
    List.sorted_insertionSort fileGe _
  have hsplit : windowFiles fs pat
      ++ (List.insertionSort fileGe (fs.filter fun x => matchesGlob pat x.name)).drop 5
      = List.insertionSort fileGe (fs.filter fun x => matchesGlob pat x.name) :=
    List.take_append_drop 5 _
  have hs2 : List.Pairwise fileGe (windowFiles fs pat
      ++ (List.insertionSort fileGe (fs.filter fun x => matchesGlob pat x.name)).drop 5) := by
    rw [hsplit]; exact hs
  obtain ⟨h1, _, h3⟩ := List.pairwise_append.mp hs2
  refine ⟨h1, ?_, fun f hf g hg => h3 g hg f hf, ?_⟩
  · unfold windowFiles
    rw [List.length_take]
    exact min_le_left _ _
  · rw [hsplit]
    exact List.perm_insertionSort fileGe _

/-- Claim C4 witness: with six matching files the window keeps the five
greatest names; in particular its length bound holds concretely. -/
theorem window_lexical_desc_witness :
    (windowFiles
      [FSFile.mk "access_1.parquet" (Except.ok []),
       FSFile.mk "access_2.parquet" (Except.ok []),
       FSFile.mk "access_3.parquet" (Except.ok []),
       FSFile.mk "access_4.parquet" (Except.ok []),
       FSFile.mk "access_5.parquet" (Except.ok []),
       FSFile.mk "access_6.parquet" (Except.ok [])] "access").length ≤ 5 :=
  (window_lexical_desc _ "access").2.1

/-- Claim C10: `read_latest_parquet_files` is total: a failed directory
listing is caught and mapped to the empty frame, and on a successful listing
the result is always the well-defined concatenation of the window's
successful loads — no exception escapes, however many files are corrupt. -/
theorem read_latest_never_raises (g : Except String (List FSFile)) (pat : String) :
    (∀ e, g = Except.error e → read_latest_parquet_files g pat = [])
    ∧ (∀ fs, g = Except.ok fs → read_latest_parquet_files g pat
        = ((windowFiles fs pat).filterMap fun f => (f.load).toOption).flatten) := by
  constructor
  · rintro e rfl
    rfl
  · rintro fs rfl
    exact read_latest_ok_eq fs pat

/-- Claim C10 witness: an unreadable directory and an all-corrupt directory
both yield the empty frame rather than an error. -/
theorem read_latest_never_raises_witness :
    read_latest_parquet_files (Except.error "OSError: cannot list directory") "access" = []
    ∧ read_latest_parquet_files
        (Except.ok [FSFile.mk "access_bad.parquet" (Except.error "corrupt")]) "access" = [] := by
  constructor
  · exact (read_latest_never_raises (Except.error "OSError: cannot list directory") "access").1
      "OSError: cannot list directory" rfl
  · rw [(read_latest_never_raises
      (Except.ok [FSFile.mk "access_bad.parquet" (Except.error "corrupt")]) "access").2
      [FSFile.mk "access_bad.parquet" (Except.error "corrupt")] rfl]
    decide

/-! ## Claims about the TTL cache -/

/-- Claim C5 counterexample: two fetches two seconds apart (well within the
ten-second ttl), with no underlying file change, where the second fetch DOES
invoke the refresh function: the entry was stored at time 0, the fetches
happen at times 9 and 11, so the entry expires between them. The first fetch
is served from the cache, the second refreshes — the returned record sets
are still identical, but refresh work happens. -/
theorem cache_refetch_within_ttl_refreshes :
    11 - 9 < ttlSeconds
    ∧ (get_dataframe [] (fun k => if k = "access" then some ([], 0) else none) 9 "access").2.2
        = false
    ∧ (get_dataframe []
        ((get_dataframe [] (fun k => if k = "access" then some ([], 0) else none) 9 "access").2.1)
        11 "access").2.2 = true
    ∧ (get_dataframe [] (fun k => if k = "access" then some ([], 0) else none) 9 "access").1
      = (get_dataframe []
          ((get_dataframe [] (fun k => if k = "access" then some ([], 0) else none) 9 "access").2.1)
          11 "access").1 := by
  exact ⟨by decide, by decide, by decide, by decide⟩

/-- Claim C5 amended: two fetches within `ttl` seconds of each other with no
underlying file change return bit-identical record sets; and whenever the
first fetch itself invoked the refresh function (storing the entry), the
second fetch is served from the cache without invoking it again. (As stated
the claim fails — see the counterexample — because the first fetch may be
served from an entry stored earlier, which can expire between the two
fetches; the re-refresh still returns the identical record set.) -/
theorem cache_fresh_within_ttl (fs : List FSFile) (st : CacheState) (t0 t1 : Nat) (key : String)
    (hcons : CacheConsistent fs st) (_h01 : t0 ≤ t1) (h1 : t1 < t0 + ttlSeconds) :
    (get_dataframe fs st t0 key).1
      = (get_dataframe fs (get_dataframe fs st t0 key).2.1 t1 key).1
    ∧ ((get_dataframe fs st t0 key).2.2 = true →
        (get_dataframe fs (get_dataframe fs st t0 key).2.1 t1 key).2.2 = false) := by
  cases hst : st key with
  | none =>
    have hfirst : get_dataframe fs st t0 key = refreshKey fs st t0 key := by
      unfold get_dataframe
      rw [hst]
    have h21 : (get_dataframe fs st t0 key).2.1 = (refreshKey fs st t0 key).2.1 := by
      rw [hfirst]
    have hst1 : (refreshKey fs st t0 key).2.1 key
        = some (read_latest_parquet_files (Except.ok fs) key, t0) := by
      unfold refreshKey
      simp
    have hsecond : get_dataframe fs (refreshKey fs st t0 key).2.1 t1 key
        = (read_latest_parquet_files (Except.ok fs) key, (refreshKey fs st t0 key).2.1, false) := by
      unfold get_dataframe
      rw [hst1]
      simp [h1]
    rw [h21, hsecond, hfirst]
    exact ⟨rfl, fun _ => rfl⟩
  | some vt =>
    obtain ⟨v, ts⟩ := vt
    by_cases hfresh : t0 < ts + ttlSeconds
    · have hfirst : get_dataframe fs st t0 key
          = ((v, st, false) : List RawRecord × CacheState × Bool) := by
        unfold get_dataframe
        rw [hst]
        simp [hfresh]
      have h21 : (get_dataframe fs st t0 key).2.1 = st := by
        rw [hfirst]
      by_cases hf2 : t1 < ts + ttlSeconds
      · have hsecond : get_dataframe fs st t1 key
            = ((v, st, false) : List RawRecord × CacheState × Bool) := by
          unfold get_dataframe
          rw [hst]
          simp [hf2]
        rw [h21, hsecond, hfirst]
        exact ⟨rfl, fun h => absurd h Bool.false_ne_true⟩
      · have hv : v = read_latest_parquet_files (Except.ok fs) key := hcons key v ts hst
        have hsecond : get_dataframe fs st t1 key = refreshKey fs st t1 key := by
          unfold get_dataframe
          rw [hst]
          simp [hf2]
        rw [h21, hsecond, hfirst]
        refine ⟨?_, fun h => absurd h Bool.false_ne_true⟩
        rw [hv]
        rfl
    · have hfirst : get_dataframe fs st t0 key = refreshKey fs st t0 key := by
        unfold get_dataframe
        rw [hst]
        simp [hfresh]
      have h21 : (get_dataframe fs st t0 key).2.1 = (refreshKey fs st t0 key).2.1 := by
        rw [hfirst]
      have hst1 : (refreshKey fs st t0 key).2.1 key
          = some (read_latest_parquet_files (Except.ok fs) key, t0) := by
        unfold refreshKey
        simp
      have hsecond : get_dataframe fs (refreshKey fs st t0 key).2.1 t1 key
          = (read_latest_parquet_files (Except.ok fs) key,
              (refreshKey fs st t0 key).2.1, false) := by
        unfold get_dataframe
        rw [hst1]
        simp [h1]
      rw [h21, hsecond, hfirst]
      exact ⟨rfl, fun _ => rfl⟩

/-- Claim C5 amended witness: a cold-cache fetch at time 0 followed by a
fetch at time 5 returns the same record set without re-invoking the read. -/
theorem cache_fresh_within_ttl_witness :
    (get_dataframe [] (fun _ => none) 0 "access").1
      = (get_dataframe [] (get_dataframe [] (fun _ => none) 0 "access").2.1 5 "access").1
    ∧ ((get_dataframe [] (fun _ => none) 0 "access").2.2 = true →
        (get_dataframe [] (get_dataframe [] (fun _ => none) 0 "access").2.1 5 "access").2.2
          = false) :=
  cache_fresh_within_ttl [] (fun _ => none) 0 5 "access"
    (fun _ _ _ h => Option.noConfusion h) (by decide) (by decide)

/-! ## Claims about aggregation -/

/-- Claim C6 counterexample: the resample output is dense, not sparse — with
records at 0s and 125s only, the empty 60s–120s bucket IS emitted, with
count 0. -/
theorem zero_count_bucket_emitted :
    create_time_series [LogRecord.mk 0 "a", LogRecord.mk 125 "b"] "Access Logs"
      = [TimeBucket.mk 0 1, TimeBucket.mk 60 0, TimeBucket.mk 120 1]
    ∧ TimeBucket.mk 60 0
        ∈ create_time_series [LogRecord.mk 0 "a", LogRecord.mk 125 "b"] "Access Logs" := by
  exact ⟨by decide, by decide⟩

/-- Sum of per-bin counts over a dense range covering every element's bin
equals the number of elements: each element is counted in exactly one bin. -/
theorem sum_counts_range {α : Type} (key : α → Int) (l : List α) (lo : Int) (n : Nat)
    (hcov : ∀ a ∈ l, ∃ i : Nat, i < n ∧ lo + 60 * (i : Int) = key a) :
    ((List.range n).map fun i : Nat =>
      (l.filter fun a => key a = lo + 60 * (i : Int)).length).sum = l.length := by
  have hinj : Function.Injective fun i : Nat => lo + 60 * (i : Int) := by
    intro a b hab
    simp only at hab
    omega
  have hks : ((List.range n).map fun i : Nat => lo + 60 * (i : Int)).Nodup :=
    List.Nodup.map hinj (List.nodup_range n)
  have hcov2 : ∀ a ∈ l, key a ∈ (List.range n).map fun i : Nat => lo + 60 * (i : Int) := by
    intro a ha
    obtain ⟨i, hi, heq⟩ := hcov a ha
    exact List.mem_map.mpr ⟨i, List.mem_range.mpr hi, heq⟩
  have h := sum_filter_partition key l
    ((List.range n).map fun i : Nat => lo + 60 * (i : Int)) hks hcov2
  rw [List.map_map] at h
  exact h

/-- Claim C6 amended: on a nonempty record set the aggregation partitions the
records into contiguous one-minute buckets aligned to the floor of the
minimum timestamp, emitting every bucket from the bin of the minimum up to
the bin of the maximum inclusive — including zero-count buckets (dense, not
sparse, output): bucket `i` starts at `⌊min/60⌋·60 + 60·i`, each bucket
counts exactly the records whose timestamps floor into it, every record's
bin is emitted, and the bucket counts sum to the total number of records. -/
theorem buckets_dense_partition (t : String) (r : LogRecord) (rs : List LogRecord) :
    (∀ (i : Nat) (b : TimeBucket), (create_time_series (r :: rs) t)[i]? = some b →
      b.interval_start
        = bucketStart (listMinInt r.timestamp (rs.map LogRecord.timestamp)) + 60 * (i : Int))
    ∧ (∀ b ∈ create_time_series (r :: rs) t,
        b.count = ((r.timestamp :: rs.map LogRecord.timestamp).filter
          fun x => bucketStart x = b.interval_start).length)
    ∧ (∀ x ∈ r.timestamp :: rs.map LogRecord.timestamp,
        ∃ b ∈ create_time_series (r :: rs) t, b.interval_start = bucketStart x)
    ∧ ((create_time_series (r :: rs) t).map TimeBucket.count).sum = (r :: rs).length := by
  set mn := listMinInt r.timestamp (rs.map LogRecord.timestamp) with hmndef
  set mx := listMaxInt r.timestamp (rs.map LogRecord.timestamp) with hmxdef
  set n := ((bucketStart mx - bucketStart mn) / 60).toNat + 1 with hndef
  have hcts : create_time_series (r :: rs) t
      = (List.range n).map fun i : Nat =>
          TimeBucket.mk (bucketStart mn + 60 * (i : Int))
            (((r.timestamp :: rs.map LogRecord.timestamp).filter
              fun x => bucketStart x = bucketStart mn + 60 * (i : Int)).length) := by
    rw [hndef, hmxdef, hmndef]
    rfl
  refine ⟨?_, ?_, ?_, ?_⟩
  · intro i b hb
    rw [hcts, List.getElem?_map] at hb
    obtain ⟨j, hj, hfb⟩ := Option.map_eq_some'.mp hb
    obtain ⟨hlt, hjeq⟩ := List.getElem?_eq_some.mp hj
    rw [List.getElem_range] at hjeq
    subst hjeq
    rw [← hfb]
  · intro b hb
    rw [hcts] at hb
    obtain ⟨i, _, rfl⟩ := List.mem_map.mp hb
    rfl
  · intro x hx
    obtain ⟨i, hi, heq⟩ := bucket_index_exists r rs x hx
    rw [← hmndef] at heq
    have hin : i < n := by
      rw [hndef, hmxdef, hmndef]
      exact hi
    rw [hcts]
    exact ⟨_, List.mem_map.mpr ⟨i, List.mem_range.mpr hin, rfl⟩, heq⟩
  · have hcov : ∀ x ∈ r.timestamp :: rs.map LogRecord.timestamp,
        ∃ i : Nat, i < n ∧ bucketStart mn + 60 * (i : Int) = bucketStart x := by
      intro x hx
      obtain ⟨i, hi, heq⟩ := bucket_index_exists r rs x hx
      rw [← hmndef] at heq
      refine ⟨i, ?_, heq⟩
      rw [hndef, hmxdef, hmndef]
      exact hi
    have hsum := sum_counts_range bucketStart (r.timestamp :: rs.map LogRecord.timestamp)
      (bucketStart mn) n hcov
    rw [hcts, List.map_map]
    calc ((List.range n).map (TimeBucket.count ∘ fun i : Nat =>
          TimeBucket.mk (bucketStart mn + 60 * (i : Int))
            (((r.timestamp :: rs.map LogRecord.timestamp).filter
              fun x => bucketStart x = bucketStart mn + 60 * (i : Int)).length))).sum
        = (r.timestamp :: rs.map LogRecord.timestamp).length := hsum
      _ = (r :: rs).length := by simp

/-- Claim C6 amended witness: two records 70 seconds apart produce buckets
whose counts sum to 2. -/
theorem buckets_dense_partition_witness :
    ((create_time_series [LogRecord.mk 0 "a", LogRecord.mk 70 "b"] "T").map
      TimeBucket.count).sum = 2 :=
  (buckets_dense_partition "T" (LogRecord.mk 0 "a") [LogRecord.mk 70 "b"]).2.2.2

/-- Claim C7: the documented example — timestamps `[0, 30, 61, 62, 125]`
seconds with one-minute buckets produce exactly
`[(0, 2), (60, 2), (120, 1)]`. -/
theorem example_timestamps_buckets :
    create_time_series
      [LogRecord.mk 0 "l0", LogRecord.mk 30 "l1", LogRecord.mk 61 "l2",
       LogRecord.mk 62 "l3", LogRecord.mk 125 "l4"] "Access Logs"
      = [TimeBucket.mk 0 2, TimeBucket.mk 60 2, TimeBucket.mk 120 1] := by
  decide

/-! ## Claims about timestamp handling and the tail slice -/

/-- Claim C8 counterexample: a record whose timestamp does not parse is NOT
discarded — the `pd.to_datetime` call raises and the error propagates out of
the data-processing step (Dash would surface it as a callback error), so the
summarize call fails instead of completing on the remaining records. -/
theorem bad_timestamp_not_discarded :
    update_content_body [RawRecord.mk none "GET /index.html"] "Access Logs"
      = Except.error "ValueError: unable to parse timestamp" := rfl

/-- Claim C8 amended: records with missing or non-parseable timestamps are
not discarded: one such record makes the `pd.to_datetime` step raise, and the
error propagates to the presentation layer; the aggregation completes
(producing buckets and tail) exactly on the record sets in which every
timestamp parses. -/
theorem bad_timestamp_raises (df : List RawRecord) (t : String) (hne : df ≠ []) :
    ((∃ r ∈ df, r.timestamp = none) →
      update_content_body df t = Except.error "ValueError: unable to parse timestamp")
    ∧ ((∀ r ∈ df, r.timestamp ≠ none) →
      ∃ buckets table, update_content_body df t = Except.ok (Rendered.content buckets table)) := by
  have h0 : df.isEmpty = false := by
    cases df with
    | nil => exact absurd rfl hne
    | cons a l => rfl
  constructor
  · intro hbad
    simp [update_content_body, h0, to_datetime_error_of_bad df hbad]
  · intro hgood
    obtain ⟨recs, hrecs⟩ := to_datetime_ok_of_good df hgood
    exact ⟨create_time_series (sort_index recs) t, create_log_table (sort_index recs),
      by simp [update_content_body, h0, hrecs]⟩

/-- Claim C8 amended witness: one bad record makes the call raise; one good
record lets it complete with content. -/
theorem bad_timestamp_raises_witness :
    (update_content_body [RawRecord.mk none "bad"] "Error Logs"
      = Except.error "ValueError: unable to parse timestamp")
    ∧ (∃ buckets table, update_content_body [RawRecord.mk (some 3) "good"] "Error Logs"
        = Except.ok (Rendered.content buckets table)) :=
  ⟨(bad_timestamp_raises [RawRecord.mk none "bad"] "Error Logs" (by decide)).1
      ⟨RawRecord.mk none "bad", List.mem_cons_self _ _, rfl⟩,
   (bad_timestamp_raises [RawRecord.mk (some 3) "good"] "Error Logs" (by decide)).2
      (by decide)⟩

/-- Claim C9: the detail table is `df.tail(10)` of the timestamp-sorted
frame: it has at most ten records (exactly `min 10 len`), it is the final
segment of the sorted sequence, and it is itself sorted by ascending
timestamp. -/
theorem tail_slice_bounded_sorted (df : List LogRecord) :
    (create_log_table (sort_index df)).length ≤ 10
    ∧ (create_log_table (sort_index df)).length = min 10 (sort_index df).length
    ∧ List.take ((sort_index df).length - 10) (sort_index df)
        ++ create_log_table (sort_index df) = sort_index df
    ∧ List.Pairwise tsLe (create_log_table (sort_index df)) := by
  refine ⟨?_, ?_, List.take_append_drop _ _, ?_⟩
  · show (List.drop ((sort_index df).length - 10) (sort_index df)).length ≤ 10
    rw [List.length_drop]
    omega
  · show (List.drop ((sort_index df).length - 10) (sort_index df)).length
        = min 10 (sort_index df).length
    rw [List.length_drop]
    omega
  · have hs : List.Pairwise tsLe (sort_index df) := List.sorted_insertionSort tsLe df
    exact List.Pairwise.sublist (List.drop_sublist _ _) hs
